import Mathlib

/-!
Verification of the Simuverse frontend (HomePage.tsx, SearchPage.tsx) and of the
persona relevance/clustering core described by the specification.  Pure fragments
of the TypeScript source are embedded as Lean functions; the React event handlers
are embedded as explicit state-transition functions.  JavaScript numbers are
modelled by exact rational arithmetic.
-/

namespace Simuverse

/-! ### HomePage.tsx -/

/-- Model of JavaScript String.prototype.trim: drop leading and trailing
whitespace characters. -/
def jsTrim (s : String) : String :=
  String.mk (((s.data.dropWhile Char.isWhitespace).reverse.dropWhile Char.isWhitespace).reverse)

/-- Outcome of pressing the Generate button on the home page. -/
inductive HomeAction where
  | showError (msg : String)
  | navigateSearch (product : String)
deriving DecidableEq

/-- Embeds HomePage.tsx handleGenerateResponse: a whitespace-only input
(falsy after trim) yields the validation error, otherwise navigation to
the search page carrying the raw input. -/
def handleGenerateResponse (productInput : String) : HomeAction :=
  if jsTrim productInput = "" then
    HomeAction.showError "Please enter a product description"
  else
    HomeAction.navigateSearch productInput

/-- Embeds the guard of SearchPage.tsx loadData: the effect runs the
analyze_product fetch unless productDescription is falsy, i.e. unless it is
the empty string.  Returns true exactly when the fetch is issued. -/
def loadDataFetches (productDescription : String) : Bool :=
  productDescription != ""

/-! ### SearchPage.tsx: tag chips -/

/-- Embeds the local constant in SearchPage.tsx (both the grid card and the
chat-mode card): limitedTags = profile.tags.slice(0, 5). -/
def limitedTags (tags : List String) : List String :=
  tags.take 5

/-! ### SearchPage.tsx: feedback rendering -/

/-- One scored dimension of a persona feedback object. -/
structure FeedbackDim where
  score : ℚ
  explanation : String
deriving DecidableEq

/-- The PersonaFeedback interface of SearchPage.tsx. -/
structure PersonaFeedback where
  purchase_intent : FeedbackDim
  product_rating : FeedbackDim
  idea_relevance : FeedbackDim
deriving DecidableEq

/-- What a feedback cell of the profile card displays. -/
inductive ScoreDisplay where
  | dash
  | num (score : ℚ)
deriving DecidableEq

/-- Embeds the JSX expression feedbackData[pid]?.dim.score || em-dash, which
appears identically in the grid card and in the chat-mode card: a missing
feedback object (undefined after the optional chain) and a falsy score (0)
both display the dash. -/
def renderScoreCell (score : Option ℚ) : ScoreDisplay :=
  match score with
  | none => ScoreDisplay.dash
  | some s => if s = 0 then ScoreDisplay.dash else ScoreDisplay.num s

/-- The purchase-intent cell of the FEEDBACK section. -/
def renderPurchaseIntent (fb : Option PersonaFeedback) : ScoreDisplay :=
  renderScoreCell (fb.map (fun f => f.purchase_intent.score))

/-- The product-rating cell of the FEEDBACK section. -/
def renderProductRating (fb : Option PersonaFeedback) : ScoreDisplay :=
  renderScoreCell (fb.map (fun f => f.product_rating.score))

/-- The idea-relevance cell of the FEEDBACK section. -/
def renderIdeaRelevance (fb : Option PersonaFeedback) : ScoreDisplay :=
  renderScoreCell (fb.map (fun f => f.idea_relevance.score))

/-! ### SearchPage.tsx: seeded display-name generation -/

/-- The MALE_NAMES array of SearchPage.tsx, transcribed verbatim. -/
def MALE_NAMES : List String :=
  ["James", "Michael", "Robert", "John", "David", "William", "Richard", "Joseph",
   "Thomas", "Christopher", "Daniel", "Matthew", "Anthony", "Mark", "Donald",
   "Steven", "Andrew", "Paul", "Joshua", "Kenneth", "Kevin", "Brian", "George",
   "Timothy", "Ronald", "Edward", "Jason", "Jeffrey", "Ryan", "Jacob", "Gary",
   "Nicholas", "Eric", "Jonathan", "Stephen", "Larry", "Justin", "Scott", "Brandon",
   "Benjamin", "Samuel", "Raymond", "Gregory", "Alexander", "Patrick", "Frank",
   "Dennis", "Jerry", "Tyler", "Aaron", "Jose", "Adam", "Nathan", "Henry"]

/-- The FEMALE_NAMES array of SearchPage.tsx, transcribed verbatim. -/
def FEMALE_NAMES : List String :=
  ["Mary", "Patricia", "Jennifer", "Linda", "Barbara", "Elizabeth", "Susan",
   "Jessica", "Sarah", "Karen", "Lisa", "Nancy", "Betty", "Margaret", "Sandra",
   "Ashley", "Kimberly", "Emily", "Donna", "Michelle", "Carol", "Amanda", "Dorothy",
   "Melissa", "Deborah", "Stephanie", "Rebecca", "Sharon", "Laura", "Cynthia",
   "Kathleen", "Amy", "Angela", "Shirley", "Anna", "Brenda", "Pamela", "Emma",
   "Nicole", "Helen", "Samantha", "Katherine", "Christine", "Debra", "Rachel",
   "Carolyn", "Janet", "Catherine", "Maria", "Heather", "Diane", "Ruth", "Julie"]

/-- The ambient JavaScript runtime seen by SearchPage.tsx: the fixed pure
function Math.sin, and the stream of values Math.random would return if it
were consulted (the ambient, non-seeded randomness). -/
structure JsRuntime where
  sin : ℚ → ℚ
  ambientRandom : ℕ → ℚ

/-- Embeds seededRandom of SearchPage.tsx: x = Math.sin(seed) * 10000,
result x - Math.floor(x).  It reads only the deterministic sin component of
the runtime, never the ambient random stream. -/
def seededRandom (rt : JsRuntime) (seed : ℚ) : ℚ :=
  let x := rt.sin seed * 10000
  x - (Int.floor x : ℚ)

/-- The first maximal run of decimal digits in a character list, as matched
by the regular expression for one-or-more digits used in getRandomName. -/
def firstDigitRun : List Char → Option (List Char)
  | [] => none
  | c :: cs =>
    if c.isDigit then some (c :: cs.takeWhile Char.isDigit) else firstDigitRun cs

/-- parseInt on a run of decimal digits. -/
def digitRunToNat (ds : List Char) : ℕ :=
  ds.foldl (fun n c => 10 * n + (c.toNat - 48)) 0

/-- The seed computed by getRandomName: index * 12345 + 67890, replaced by
pidNumber * 7919 + index * 541 when the pid is truthy and contains digits. -/
def nameSeed (index : ℕ) (pid : Option String) : ℚ :=
  let base : ℚ := (index : ℚ) * 12345 + 67890
  match pid with
  | none => base
  | some p =>
    if p = "" then base
    else
      match firstDigitRun p.data with
      | none => base
      | some ds => (digitRunToNat ds : ℚ) * 7919 + (index : ℚ) * 541

/-- Model of JavaScript String.prototype.toLowerCase (ASCII case folding). -/
def jsToLower (s : String) : String :=
  String.mk (s.data.map Char.toLower)

/-- JavaScript array indexing arr[i]: undefined (none) outside bounds. -/
def jsIndex (l : List α) (i : ℤ) : Option α :=
  if h : 0 ≤ i ∧ i.toNat < l.length then some (l.get ⟨i.toNat, h.2⟩) else none

/-- Embeds getRandomName of SearchPage.tsx.  A falsy gender yields the fixed
fallback string; otherwise the seeded pseudo-random index selects from
MALE_NAMES when the lower-cased gender is male, from FEMALE_NAMES otherwise.
The result is an Option because a JavaScript array access out of bounds would
produce undefined. -/
def getRandomName (rt : JsRuntime) (gender : Option String) (index : ℕ)
    (pid : Option String) : Option String :=
  match gender with
  | none => some ("Customer Type " ++ toString (index + 1))
  | some g =>
    if g = "" then some ("Customer Type " ++ toString (index + 1))
    else
      let nameArray := if jsToLower g = "male" then MALE_NAMES else FEMALE_NAMES
      let randomValue := seededRandom rt (nameSeed index pid)
      let nameIndex : ℤ := Int.floor (randomValue * (nameArray.length : ℚ))
      jsIndex nameArray nameIndex

/-! ### SearchPage.tsx: chat state machine -/

/-- The sender tag of a chat history entry ('user' | 'bot'). -/
inductive ChatSender where
  | user
  | bot
deriving DecidableEq

/-- One entry of the chatHistory state array. -/
structure ChatMsg where
  sender : ChatSender
  message : String
deriving DecidableEq

/-- The React state of SearchPage relevant to the chat panel. -/
structure ChatState where
  chatHistory : List ChatMsg
  sessionId : Option String
  chatLoading : Bool
  chatMessage : String
deriving DecidableEq

/-- The bot message appended by the catch handler on a failed ask_persona call. -/
def chatErrorMessage : String := "Sorry, I encountered an error. Please try again."

/-- The observable outcome of one ask_persona fetch: a parsed response body
(with its possibly-null session_id), or a thrown error (network failure or a
non-ok status). -/
inductive AskResult where
  | ok (response : String) (session_id : Option String)
  | fail
deriving DecidableEq

/-- Embeds the chat send handler of SearchPage.tsx (the Enter-key handler and
the Send-button handler are verbatim duplicates).  Guard: the message must be
non-blank after trim and no send may be in flight.  The user message is
appended first; on success the bot response is appended and a null stored
session id is replaced by the returned one; on failure the catch handler
appends the fixed bot error message.  The finally block clears the loading
flag; the input field is cleared at the start. -/
def sendMessage (st : ChatState) (outcome : AskResult) : ChatState :=
  if jsTrim st.chatMessage = "" ∨ st.chatLoading = true then st
  else
    let userMessage := st.chatMessage
    let hist := st.chatHistory ++ [⟨ChatSender.user, userMessage⟩]
    match outcome with
    | AskResult.ok resp sid =>
      { chatHistory := hist ++ [⟨ChatSender.bot, resp⟩]
        sessionId := match st.sessionId with
                     | some s => some s
                     | none => sid
        chatLoading := false
        chatMessage := "" }
    | AskResult.fail =>
      { chatHistory := hist ++ [⟨ChatSender.bot, chatErrorMessage⟩]
        sessionId := st.sessionId
        chatLoading := false
        chatMessage := "" }

/-- A user-visible chat event: typing a question and sending it (with the
eventual fetch outcome), or pressing Close Chat. -/
inductive ChatEvent where
  | send (question : String) (outcome : AskResult)
  | closeChat
deriving DecidableEq

/-- Embeds the event handlers: a send runs the chat send handler on the typed
question; Close Chat clears the history and resets the session id to null. -/
def stepChat (st : ChatState) : ChatEvent → ChatState
  | ChatEvent.send q outcome => sendMessage { st with chatMessage := q } outcome
  | ChatEvent.closeChat => { st with chatHistory := [], sessionId := none }

/-- The session_id fields carried by the ask_persona request bodies issued
while executing a list of chat events: each send posts a body whose
session_id field is the sessionId state at the moment of the call. -/
def sentSessionIds (st : ChatState) : List ChatEvent → List (Option String)
  | [] => []
  | e :: es =>
    (match e with
     | ChatEvent.send _ _ => [st.sessionId]
     | ChatEvent.closeChat => []) ++ sentSessionIds (stepChat st e) es

/-- The two history entries produced by one successful exchange. -/
def mkExchange (q r : String) : List ChatMsg :=
  [⟨ChatSender.user, q⟩, ⟨ChatSender.bot, r⟩]

/-- A history strictly alternating user/bot, starting with user, of even
length (a whole number of turns). -/
def alternatesUB : List ChatMsg → Bool
  | [] => true
  | u :: b :: rest =>
    decide (u.sender = ChatSender.user) && decide (b.sender = ChatSender.bot) &&
      alternatesUB rest
  | _ :: [] => false

/-! ### SearchPage.tsx: feedback fan-out (fetchFeedback) -/

/-- One entry of data.customer_profile as consumed by fetchFeedback: the
cluster key and the profile's optional pid. -/
structure ProfileEntry where
  clusterId : String
  pid : Option String
deriving DecidableEq

/-- The pid used for the get_persona_feedback call: profile.pid || clusterId
(a missing or empty pid falls back to the cluster key). -/
def profilePid (e : ProfileEntry) : String :=
  match e.pid with
  | some p => if p = "" then e.clusterId else p
  | none => e.clusterId

/-- Embeds one iteration of the forEach loop that builds feedbackMap: a
successful result stores its feedback under its pid, a null feedback (failed
or non-ok call) stores nothing. -/
def feedbackStep (m : String → Option PersonaFeedback)
    (r : String × Option PersonaFeedback) : String → Option PersonaFeedback :=
  match r.2 with
  | some fb => fun k => if k = r.1 then some fb else m k
  | none => m

/-- The per-call results awaited by Promise.all: the i-th profile's call
yields (pid, feedback-or-null); each promise catches its own errors, so one
entry's outcome is a function of that call alone. -/
def fetchResults (profiles : List ProfileEntry)
    (outcomes : List (Option PersonaFeedback)) :
    List (String × Option PersonaFeedback) :=
  List.zipWith (fun e o => (profilePid e, o)) profiles outcomes

/-- The feedbackMap object built from the results, read as a lookup
function. -/
def buildFeedbackMap (results : List (String × Option PersonaFeedback)) :
    String → Option PersonaFeedback :=
  results.foldl feedbackStep (fun _ => none)

/-! ### Core engine (spec-modelled): rank_and_cluster

The backend implementing analyze_product (PersonaStore, Embedder,
RelevanceClusterEngine of spec sections 3 and 4.3) is not part of the
repository snapshot — only the shell script that launches the FastAPI
server and the frontend caller are present — so the engine below is
modelled from the specification text. -/

/-- Modelled from the spec: the optional demographic fields of a
PersonaRecord (section 3); the backend source holding this record type is
missing from the snapshot. -/
structure Demographics where
  gender : Option String
  age : Option String
  marital_status : Option String
  income : Option String
  employment_status : Option String
deriving DecidableEq

/-- Modelled from the spec: one digital-twin persona record (section 3); the
backend source holding this record type is missing from the snapshot. -/
structure PersonaRecord where
  pid : String
  demographics : Demographics
  tags : List String
  summary : String
  embedding : List ℚ
deriving DecidableEq

/-- A placeholder record used only as the default of list lookups that are
proven in-bounds. -/
def dummyPersona : PersonaRecord :=
  ⟨"", ⟨none, none, none, none, none⟩, [], "", []⟩

/-- Modelled from the spec: one ClusterProfile segment (section 3); the
backend source holding this record type is missing from the snapshot. -/
structure ClusterProfile where
  cluster_id : ℕ
  member_pids : List String
  representative_pid : String
  percentage : ℤ
  tags : List String
deriving DecidableEq

/-- Dot product of two embedding vectors. -/
def dot (a b : List ℚ) : ℚ :=
  (List.zipWith (fun x y => x * y) a b).sum

/-- Squared Euclidean norm of an embedding vector. -/
def normSq (a : List ℚ) : ℚ :=
  dot a a

/-- Modelled from the spec: the cosine-similarity order of section 4.3,
expressed without square roots.  Given dot products with the query and
squared norms, decides whether the first cosine similarity is at least the
second (comparing signed squared values keeps the arithmetic rational). -/
def simGE (da na db nb : ℚ) : Bool :=
  if 0 ≤ da then
    if 0 ≤ db then decide (db * db * na ≤ da * da * nb) else true
  else
    if 0 ≤ db then false else decide (da * da * nb ≤ db * db * na)

/-- Modelled from the spec: the ranking order of section 4.3 — higher cosine
similarity to the product vector first, ties broken by ascending corpus
order.  Operates on corpus-indexed records. -/
def rankLE (v : List ℚ) (x y : ℕ × PersonaRecord) : Bool :=
  let dx := dot v x.2.embedding
  let nx := normSq x.2.embedding
  let dy := dot v y.2.embedding
  let ny := normSq y.2.embedding
  if simGE dx nx dy ny then
    if simGE dy ny dx nx then decide (x.1 ≤ y.1) else true
  else false

/-- Insertion step of the deterministic sort used for ranking. -/
def insertBy (le : α → α → Bool) (x : α) : List α → List α
  | [] => [x]
  | y :: ys => if le x y then x :: y :: ys else y :: insertBy le x ys

/-- Deterministic insertion sort by a boolean order. -/
def sortBy (le : α → α → Bool) : List α → List α
  | [] => []
  | x :: xs => insertBy le x (sortBy le xs)

/-- The corpus ranked by descending similarity (ties by corpus order). -/
def rankedCorpus (v : List ℚ) (store : List PersonaRecord) : List (ℕ × PersonaRecord) :=
  sortBy (rankLE v) store.enum

/-- Modelled from the spec: the top-K selection of section 4.3 — the K
highest-similarity personas, all of them when the corpus is smaller. -/
def topKOf (v : List ℚ) (store : List PersonaRecord) (K : ℕ) : List (ℕ × PersonaRecord) :=
  (rankedCorpus v store).take K

/-- Componentwise sum of two vectors. -/
def vecAdd (a b : List ℚ) : List ℚ :=
  List.zipWith (fun x y => x + y) a b

/-- The mean of a non-empty list of vectors (empty input gives the empty
vector). -/
def mean (ms : List (List ℚ)) : List ℚ :=
  match ms with
  | [] => []
  | m :: _ => (ms.foldl vecAdd (List.replicate m.length 0)).map (fun x => x / (ms.length : ℚ))

/-- Squared Euclidean distance between two vectors. -/
def sqDist (a b : List ℚ) : ℚ :=
  ((List.zipWith (fun x y => x - y) a b).map (fun x => x * x)).sum

/-- The index of the centroid nearest to x (ties keep the lowest index). -/
def nearestIdx (cents : List (List ℚ)) (x : List ℚ) : ℕ :=
  (List.range cents.length).foldl
    (fun best i =>
      if sqDist (cents.getD i []) x < sqDist (cents.getD best []) x then i else best)
    0

/-- Modelled from the spec: the deterministic seeded choice of initial
centroids required by section 4.3 (a fixed random seed, never ambient
randomness): centroid i is the embedding of the top-K member at position
(seed + i) mod size. -/
def initCentroids (seed cc : ℕ) (topK : List (ℕ × PersonaRecord)) : List (List ℚ) :=
  (List.range cc).map
    (fun i => ((topK.getD ((seed + i) % topK.length) (0, dummyPersona)).2).embedding)

/-- One Lloyd update: each centroid becomes the mean of the points assigned
to it (kept unchanged if no point is assigned). -/
def updateCentroids (cents : List (List ℚ)) (pts : List (List ℚ)) : List (List ℚ) :=
  (List.range cents.length).map
    (fun c =>
      match pts.filter (fun p => nearestIdx cents p = c) with
      | [] => cents.getD c []
      | q :: qs => mean (q :: qs))

/-- Modelled from the spec: the iterative centroid-based partitioning of
section 4.3, run for a fixed number of iterations. -/
def kmeansIter : ℕ → List (List ℚ) → List (List ℚ) → List (List ℚ)
  | 0, cents, _ => cents
  | Nat.succ fuel, cents, pts => kmeansIter fuel (updateCentroids cents pts) pts

/-- The final centroids for a request. -/
def centroidsOf (v : List ℚ) (store : List PersonaRecord)
    (K clusterCount seed fuel : ℕ) : List (List ℚ) :=
  let topK := topKOf v store K
  kmeansIter fuel (initCentroids seed (min clusterCount topK.length) topK)
    (topK.map (fun q => q.2.embedding))

/-- The members of cluster c: the top-K records whose embedding is nearest
to centroid c. -/
def clusterMembers (cents : List (List ℚ)) (topK : List (ℕ × PersonaRecord))
    (c : ℕ) : List (ℕ × PersonaRecord) :=
  topK.filter (fun q => nearestIdx cents q.2.embedding = c)

/-- Modelled from the spec: the representative of a cluster — the member
with minimum distance to the centroid, ties broken by ascending corpus
order (section 4.3). -/
def representativeOf (cent : List ℚ) (mem : List (ℕ × PersonaRecord)) : String :=
  match mem with
  | [] => ""
  | m :: rest =>
    (rest.foldl
      (fun best q =>
        if sqDist q.2.embedding cent < sqDist best.2.embedding cent then q
        else if sqDist q.2.embedding cent = sqDist best.2.embedding cent ∧ q.1 < best.1 then q
        else best)
      m).2.pid

/-- Modelled from the spec: the most frequent trait strings among the
members, capped at 5 (section 3). -/
def topTags (mem : List (ℕ × PersonaRecord)) : List String :=
  let allTags := mem.flatMap (fun q => q.2.tags)
  (sortBy (fun a b => decide (allTags.count b ≤ allTags.count a)) allTags.dedup).take 5

/-- The ClusterProfile built for cluster c. -/
def mkClusterProfile (cents : List (List ℚ)) (topK : List (ℕ × PersonaRecord))
    (c : ℕ) : ClusterProfile :=
  let mem := clusterMembers cents topK c
  { cluster_id := c
    member_pids := mem.map (fun q => q.2.pid)
    representative_pid := representativeOf (cents.getD c []) mem
    percentage := round (((mem.length : ℚ) / (topK.length : ℚ)) * 100)
    tags := topTags mem }

/-- The clusters of a request: one profile per non-empty fiber of the final
centroid assignment; the cluster count is reduced to the top-K size when it
exceeds it, so that no empty clusters are emitted. -/
def clustersOf (v : List ℚ) (store : List PersonaRecord)
    (K clusterCount seed fuel : ℕ) : List ClusterProfile :=
  let topK := topKOf v store K
  let cents := centroidsOf v store K clusterCount seed fuel
  (List.range (min clusterCount topK.length)).filterMap
    (fun c =>
      match clusterMembers cents topK c with
      | [] => none
      | _ :: _ => some (mkClusterProfile cents topK c))

/-- Modelled from the spec: rank_and_cluster of section 4.3 — the top-K
relevance result and its partition into cluster profiles. -/
def rank_and_cluster (v : List ℚ) (store : List PersonaRecord)
    (K clusterCount seed fuel : ℕ) :
    List (ℕ × PersonaRecord) × List ClusterProfile :=
  (topKOf v store K, clustersOf v store K clusterCount seed fuel)

/-- A small three-persona corpus used to instantiate the clustering
theorems on concrete data. -/
def demoStore : List PersonaRecord :=
  [⟨"a", ⟨none, none, none, none, none⟩, ["t1"], "sa", [1, 0]⟩,
   ⟨"b", ⟨none, none, none, none, none⟩, ["t2"], "sb", [0, 1]⟩,
   ⟨"c", ⟨none, none, none, none, none⟩, ["t3"], "sc", [1, 1]⟩]

/-! ### Theorems for C3, C5, C10 -/

/-- Claim C3: the trait chips rendered for a cluster profile are exactly the
prefix of the profile's tags of length min 5 (length tags); in particular at
most 5 tags are ever shown. -/
theorem limitedTags_is_five_prefix (tags : List String) :
    (limitedTags tags).length = min 5 tags.length ∧
    ∀ i : ℕ, (limitedTags tags).get? i =
      if i < min 5 tags.length then tags.get? i else none := by
  constructor
  · simp [limitedTags]
  · intro i
    by_cases h : i < min 5 tags.length
    · rw [if_pos h]
      exact List.get?_take (lt_of_lt_of_le h (min_le_left _ _))
    · rw [if_neg h]
      apply List.get?_eq_none.mpr
      simp only [limitedTags, List.length_take]
      omega

/-- Claim C5 counterexample: a whitespace-only (non-empty) product description
is not rejected by the SearchPage data loader: for the single-space
description the loader does issue the analyze_product fetch, although the
description trims to the empty string. -/
theorem whitespace_description_still_fetches :
    jsTrim " " = "" ∧ loadDataFetches " " = true := by
  constructor
  · rfl
  · rfl

/-- Claim C5 (amended): HomePage rejects an empty or whitespace-only product
description before navigating (validation error, no downstream call), and
SearchPage's data loader skips the analyze_product fetch exactly when the
description is the empty string — a whitespace-only description does trigger
the fetch. -/
theorem blank_description_validation (s : String) (h : jsTrim s = "") :
    handleGenerateResponse s = HomeAction.showError "Please enter a product description" ∧
    (loadDataFetches s = true ↔ s ≠ "") := by
  constructor
  · simp [handleGenerateResponse, h]
  · simp [loadDataFetches]

/-- Claim C5 witness: the amended theorem applied to the single-space input. -/
theorem blank_description_validation_witness :
    handleGenerateResponse " " = HomeAction.showError "Please enter a product description" ∧
    (loadDataFetches " " = true ↔ " " ≠ "") :=
  blank_description_validation " " (by rfl)

/-- Claim C10: a feedback dimension whose score is 0 renders as the dash
placeholder, indistinguishable from the cell rendered when no feedback exists
for the persona at all; this holds for all three dimensions and in both the
grid card and the chat-mode card, which use the identical expression. -/
theorem zero_score_renders_dash (f : PersonaFeedback)
    (h : f.purchase_intent.score = 0) :
    renderPurchaseIntent (some f) = ScoreDisplay.dash ∧
    renderPurchaseIntent (some f) = renderPurchaseIntent none ∧
    (∀ g : PersonaFeedback, g.product_rating.score = 0 →
      renderProductRating (some g) = renderProductRating none) ∧
    (∀ g : PersonaFeedback, g.idea_relevance.score = 0 →
      renderIdeaRelevance (some g) = renderIdeaRelevance none) ∧
    renderPurchaseIntent none = ScoreDisplay.dash := by
  refine ⟨?_, ?_, ?_, ?_, rfl⟩
  · simp [renderPurchaseIntent, renderScoreCell, h]
  · simp [renderPurchaseIntent, renderScoreCell, h]
  · intro g hg
    simp [renderProductRating, renderScoreCell, hg]
  · intro g hg
    simp [renderIdeaRelevance, renderScoreCell, hg]

/-- Claim C10 witness: a concrete feedback object with all scores 0 renders
all three cells as the dash. -/
theorem zero_score_renders_dash_witness :
    renderPurchaseIntent (some ⟨⟨0, "a"⟩, ⟨0, "b"⟩, ⟨0, "c"⟩⟩) = ScoreDisplay.dash ∧
    renderPurchaseIntent (some ⟨⟨0, "a"⟩, ⟨0, "b"⟩, ⟨0, "c"⟩⟩) = renderPurchaseIntent none :=
  ⟨(zero_score_renders_dash ⟨⟨0, "a"⟩, ⟨0, "b"⟩, ⟨0, "c"⟩⟩ rfl).1,
   (zero_score_renders_dash ⟨⟨0, "a"⟩, ⟨0, "b"⟩, ⟨0, "c"⟩⟩ rfl).2.1⟩

/-! ### Theorems for C4, C9 -/

/-- Claim C4: display-name generation is deterministic.  Two getRandomName
calls with equal explicit arguments (gender, index, pid) return the identical
name, for any two runtime environments that agree on the pure function
Math.sin but may differ arbitrarily in ambient randomness: the seeded
pseudo-random choice never consults Math.random. -/
theorem getRandomName_deterministic (rt₁ rt₂ : JsRuntime) (h : rt₁.sin = rt₂.sin)
    (gender : Option String) (index : ℕ) (pid : Option String) :
    getRandomName rt₁ gender index pid = getRandomName rt₂ gender index pid := by
  simp [getRandomName, seededRandom, h]

/-- Claim C4 witness: two runtimes with the same sin but different ambient
random streams produce the same name for concrete arguments. -/
theorem getRandomName_deterministic_witness :
    (⟨fun q => q, fun _ => 0⟩ : JsRuntime).sin = (⟨fun q => q, fun _ => 1⟩ : JsRuntime).sin ∧
    getRandomName ⟨fun q => q, fun _ => 0⟩ (some "male") 0 (some "user_000009") =
      getRandomName ⟨fun q => q, fun _ => 1⟩ (some "male") 0 (some "user_000009") :=
  ⟨rfl, getRandomName_deterministic _ _ rfl _ _ _⟩

/-- Claim C9 counterexample: the name array selected for gender female is
FEMALE_NAMES, which has 53 elements, not 54 (only MALE_NAMES has 54) — so the
index is not drawn from a 54-element array for every gender. -/
theorem female_names_are_53 :
    (if jsToLower "female" = "male" then MALE_NAMES else FEMALE_NAMES) = FEMALE_NAMES ∧
    FEMALE_NAMES.length = 53 ∧ MALE_NAMES.length = 54 := by
  refine ⟨?_, rfl, rfl⟩
  decide

/-- Helper: indexing a non-empty list at floor (r * length) with 0 ≤ r < 1
always lands in bounds. -/
theorem jsIndex_floor_isSome (l : List α) (hl : 0 < l.length) (r : ℚ)
    (h0 : 0 ≤ r) (h1 : r < 1) :
    (jsIndex l (Int.floor (r * (l.length : ℚ)))).isSome = true := by
  have hn : (0 : ℚ) < (l.length : ℚ) := by exact_mod_cast hl
  have hfl0 : 0 ≤ Int.floor (r * (l.length : ℚ)) :=
    Int.floor_nonneg.mpr (mul_nonneg h0 (le_of_lt hn))
  have hflt : Int.floor (r * (l.length : ℚ)) < (l.length : ℤ) := by
    apply Int.floor_lt.mpr
    have h2 := mul_lt_mul_of_pos_right h1 hn
    rw [one_mul] at h2
    exact_mod_cast h2
  have ht : (Int.floor (r * (l.length : ℚ))).toNat < l.length := by omega
  simp [jsIndex, ht, Int.toNat_lt]
  omega

/-- Claim C9 (amended): getRandomName is total and never returns undefined:
seededRandom always yields a value in the interval from 0 inclusive to 1
exclusive, so the computed index lies strictly within the bounds of whichever
name array is selected (54 male names, 53 female names), and when gender is
absent or empty the fixed fallback string is returned. -/
theorem getRandomName_total (rt : JsRuntime) (gender : Option String) (index : ℕ)
    (pid : Option String) :
    (getRandomName rt gender index pid).isSome = true ∧
    getRandomName rt none index pid = some ("Customer Type " ++ toString (index + 1)) ∧
    0 ≤ seededRandom rt (nameSeed index pid) ∧
    seededRandom rt (nameSeed index pid) < 1 := by
  have hfr : seededRandom rt (nameSeed index pid) =
      Int.fract (rt.sin (nameSeed index pid) * 10000) := rfl
  have h0 : 0 ≤ seededRandom rt (nameSeed index pid) := by
    rw [hfr]; exact Int.fract_nonneg _
  have h1 : seededRandom rt (nameSeed index pid) < 1 := by
    rw [hfr]; exact Int.fract_lt_one _
  refine ⟨?_, rfl, h0, h1⟩
  match gender with
  | none => rfl
  | some g =>
    show (getRandomName rt (some g) index pid).isSome = true
    rw [getRandomName]
    by_cases hg : g = ""
    · simp [hg]
    · rw [if_neg hg]
      by_cases hm : jsToLower g = "male"
      · rw [if_pos hm]
        exact jsIndex_floor_isSome MALE_NAMES (by decide) _ h0 h1
      · rw [if_neg hm]
        exact jsIndex_floor_isSome FEMALE_NAMES (by decide) _ h0 h1

/-! ### Theorems for C6, C7, C8 -/

/-- Claim C6 counterexample: starting a fresh chat and sending the message Hi
with a failing ask_persona call leaves a history of the user entry followed
by an appended bot error entry (so a bot-sender reply IS appended on
failure), and retyping and resending the same question afterwards yields a
history containing the user entry Hi twice (the retry appends, it does not
replace the pending turn). -/
theorem failed_send_appends_bot_error :
    (sendMessage ⟨[], none, false, "Hi"⟩ AskResult.fail).chatHistory =
      [⟨ChatSender.user, "Hi"⟩, ⟨ChatSender.bot, chatErrorMessage⟩] ∧
    ((sendMessage
        { sendMessage ⟨[], none, false, "Hi"⟩ AskResult.fail with chatMessage := "Hi" }
        (AskResult.ok "Glad you asked" (some "sess-1"))).chatHistory.countP
      (fun m => decide (m = ⟨ChatSender.user, "Hi"⟩)) = 2) := by
  decide

/-- Claim C6 (amended): if the ask_persona call fails, the user message
remains recorded and the fixed bot error message is appended after it; a
retry of the same question against the same state appends a second user
entry and (on success) its reply — the pending turn is appended to, never
replaced. -/
theorem failed_send_keeps_user_and_appends (st : ChatState) (q r : String)
    (sid : Option String) (hload : st.chatLoading = false) (hq : ¬ jsTrim q = "") :
    (sendMessage { st with chatMessage := q } AskResult.fail).chatHistory =
      st.chatHistory ++ [⟨ChatSender.user, q⟩, ⟨ChatSender.bot, chatErrorMessage⟩] ∧
    (sendMessage
        { sendMessage { st with chatMessage := q } AskResult.fail with chatMessage := q }
        (AskResult.ok r sid)).chatHistory =
      st.chatHistory ++ [⟨ChatSender.user, q⟩, ⟨ChatSender.bot, chatErrorMessage⟩,
        ⟨ChatSender.user, q⟩, ⟨ChatSender.bot, r⟩] := by
  constructor
  · simp [sendMessage, hq, hload]
  · simp [sendMessage, hq, hload]

/-- Claim C6 witness: the amended theorem at a concrete fresh state. -/
theorem failed_send_keeps_user_and_appends_witness :
    (sendMessage { (⟨[], none, false, ""⟩ : ChatState) with chatMessage := "Hi" }
        AskResult.fail).chatHistory =
      [] ++ [⟨ChatSender.user, "Hi"⟩, ⟨ChatSender.bot, chatErrorMessage⟩] ∧
    (sendMessage
        { sendMessage { (⟨[], none, false, ""⟩ : ChatState) with chatMessage := "Hi" }
            AskResult.fail with chatMessage := "Hi" }
        (AskResult.ok "A" none)).chatHistory =
      [] ++ [⟨ChatSender.user, "Hi"⟩, ⟨ChatSender.bot, chatErrorMessage⟩,
        ⟨ChatSender.user, "Hi"⟩, ⟨ChatSender.bot, "A"⟩] :=
  failed_send_keeps_user_and_appends ⟨[], none, false, ""⟩ "Hi" "A" none rfl (by decide)

/-- Helper: the chat send handler never replaces an already-set session id. -/
theorem sendMessage_sessionId_mono (st : ChatState) (o : AskResult) (s : String)
    (h : st.sessionId = some s) : (sendMessage st o).sessionId = some s := by
  unfold sendMessage
  by_cases hg : jsTrim st.chatMessage = "" ∨ st.chatLoading = true
  · rw [if_pos hg]; exact h
  · rw [if_neg hg]
    cases o with
    | ok resp sid => simp [h]
    | fail => simp [h]

/-- Helper: with a session id already set, every request of a close-free
event run carries that id and the final state still holds it. -/
theorem sentSessionIds_replicate (st : ChatState) (s : String) (h : st.sessionId = some s)
    (evs : List ChatEvent) (hnc : ∀ e ∈ evs, e ≠ ChatEvent.closeChat) :
    sentSessionIds st evs = List.replicate evs.length (some s) ∧
    (List.foldl stepChat st evs).sessionId = some s := by
  induction evs generalizing st with
  | nil => exact ⟨rfl, h⟩
  | cons e es ih =>
    have he : e ≠ ChatEvent.closeChat := hnc e (List.mem_cons_self _ _)
    cases e with
    | closeChat => exact absurd rfl he
    | send q o =>
      have hstep : (stepChat st (ChatEvent.send q o)).sessionId = some s :=
        sendMessage_sessionId_mono _ o s h
      obtain ⟨ih1, ih2⟩ := ih (stepChat st (ChatEvent.send q o)) hstep
        (fun e' he' => hnc e' (List.mem_cons_of_mem _ he'))
      refine ⟨?_, ih2⟩
      show [st.sessionId] ++ sentSessionIds (stepChat st (ChatEvent.send q o)) es = _
      rw [h, ih1]
      simp [List.replicate_succ]

/-- Claim C7: once a session id is stored it is carried verbatim by every
subsequent ask_persona request of the open chat and is never replaced
(conjuncts 1 and 2); the first request of a chat carries session_id null and,
when the response supplies an id, that id becomes the stored one (conjunct
3); Close Chat resets the stored id to null (conjunct 4). -/
theorem session_id_stable (st : ChatState) (s : String) (h : st.sessionId = some s)
    (evs : List ChatEvent) (hnc : ∀ e ∈ evs, e ≠ ChatEvent.closeChat) :
    sentSessionIds st evs = List.replicate evs.length (some s) ∧
    (List.foldl stepChat st evs).sessionId = some s ∧
    (∀ st₀ : ChatState, ∀ q r s₀, st₀.sessionId = none → st₀.chatLoading = false →
      ¬ jsTrim q = "" →
      sentSessionIds st₀ [ChatEvent.send q (AskResult.ok r (some s₀))] = [none] ∧
      (stepChat st₀ (ChatEvent.send q (AskResult.ok r (some s₀)))).sessionId = some s₀) ∧
    (∀ st₁ : ChatState, (stepChat st₁ ChatEvent.closeChat).sessionId = none) := by
  obtain ⟨h1, h2⟩ := sentSessionIds_replicate st s h evs hnc
  refine ⟨h1, h2, ?_, fun st₁ => rfl⟩
  intro st₀ q r s₀ h₀ hl hq
  constructor
  · show [st₀.sessionId] ++ [] = [none]
    rw [h₀]
    rfl
  · show (sendMessage { st₀ with chatMessage := q } (AskResult.ok r (some s₀))).sessionId = some s₀
    simp [sendMessage, hq, hl, h₀]

/-- Claim C7 witness: a state with stored id s1 keeps carrying s1 across a
successful exchange (whose response offers a different id) and a failed one. -/
theorem session_id_stable_witness :
    sentSessionIds ⟨[], some "s1", false, ""⟩
        [ChatEvent.send "Q" (AskResult.ok "A" (some "other")),
         ChatEvent.send "R" AskResult.fail] = List.replicate 2 (some "s1") ∧
    (List.foldl stepChat ⟨[], some "s1", false, ""⟩
        [ChatEvent.send "Q" (AskResult.ok "A" (some "other")),
         ChatEvent.send "R" AskResult.fail]).sessionId = some "s1" := by
  have h := session_id_stable ⟨[], some "s1", false, ""⟩ "s1" rfl
    [ChatEvent.send "Q" (AskResult.ok "A" (some "other")),
     ChatEvent.send "R" AskResult.fail] (by decide)
  exact ⟨h.1, h.2.1⟩

/-- Helper: folding successful sends appends one user/bot pair per exchange
and leaves the loading flag clear. -/
theorem foldl_sends_ok (qs : List String) :
    ∀ (rs : List String) (st : ChatState), st.chatLoading = false →
    (∀ q ∈ qs, ¬ jsTrim q = "") → qs.length = rs.length →
    (List.foldl stepChat st
        (List.zipWith (fun q r => ChatEvent.send q (AskResult.ok r none)) qs rs)).chatHistory
      = st.chatHistory ++ (qs.zip rs).flatMap (fun p => mkExchange p.1 p.2) ∧
    (List.foldl stepChat st
        (List.zipWith (fun q r => ChatEvent.send q (AskResult.ok r none)) qs rs)).chatLoading
      = false := by
  induction qs with
  | nil => intro rs st hl _ _; exact ⟨by simp, hl⟩
  | cons q qs ih =>
    intro rs st hl hq hlen
    cases rs with
    | nil => simp at hlen
    | cons r rs =>
      have hq0 : ¬ jsTrim q = "" := hq q (List.mem_cons_self _ _)
      have hstep : stepChat st (ChatEvent.send q (AskResult.ok r none)) =
          { chatHistory := st.chatHistory ++ [⟨ChatSender.user, q⟩] ++ [⟨ChatSender.bot, r⟩]
            sessionId := match st.sessionId with
                         | some s => some s
                         | none => none
            chatLoading := false
            chatMessage := "" } := by
        show sendMessage { st with chatMessage := q } (AskResult.ok r none) = _
        simp [sendMessage, hq0, hl]
      obtain ⟨ih1, ih2⟩ := ih rs (stepChat st (ChatEvent.send q (AskResult.ok r none)))
        (by rw [hstep]) (fun q' hq' => hq q' (List.mem_cons_of_mem _ hq'))
        (by simpa using hlen)
      constructor
      · show (List.foldl stepChat (stepChat st (ChatEvent.send q (AskResult.ok r none))) _).chatHistory = _
        rw [ih1, hstep]
        simp [mkExchange, List.append_assoc]
      · show (List.foldl stepChat (stepChat st (ChatEvent.send q (AskResult.ok r none))) _).chatLoading = false
        exact ih2

/-- Helper: a pair list flattened into exchanges has twice its length. -/
theorem bind_mkExchange_length (l : List (String × String)) :
    (l.flatMap fun p => mkExchange p.1 p.2).length = 2 * l.length := by
  induction l with
  | nil => rfl
  | cons p l ih =>
    have h2 : (mkExchange p.1 p.2).length = 2 := rfl
    rw [List.flatMap_cons, List.length_append, ih, h2, List.length_cons]
    omega

/-- Helper: a flattened exchange list strictly alternates user/bot. -/
theorem bind_mkExchange_alternates (l : List (String × String)) :
    alternatesUB (l.flatMap fun p => mkExchange p.1 p.2) = true := by
  induction l with
  | nil => rfl
  | cons p l ih => simpa [mkExchange, alternatesUB] using ih

/-- Claim C8: N successful exchanges against a fresh chat produce a final
history that is exactly the user/bot pairs of the N question/response pairs
in order — hence exactly 2N entries, strictly alternating user then bot,
with no duplicated or dropped turns — and the in-flight guard makes the send
handler a no-op while a send is already in flight, preventing interleaving. -/
theorem chat_history_is_2N_alternating (qs rs : List String)
    (hlen : qs.length = rs.length) (hq : ∀ q ∈ qs, ¬ jsTrim q = "")
    (st : ChatState) (hh : st.chatHistory = []) (hl : st.chatLoading = false) :
    (List.foldl stepChat st
        (List.zipWith (fun q r => ChatEvent.send q (AskResult.ok r none)) qs rs)).chatHistory
      = (qs.zip rs).flatMap (fun p => mkExchange p.1 p.2) ∧
    (List.foldl stepChat st
        (List.zipWith (fun q r => ChatEvent.send q (AskResult.ok r none)) qs rs)).chatHistory.length
      = 2 * qs.length ∧
    alternatesUB (List.foldl stepChat st
        (List.zipWith (fun q r => ChatEvent.send q (AskResult.ok r none)) qs rs)).chatHistory
      = true ∧
    (∀ st' : ChatState, ∀ o : AskResult, st'.chatLoading = true → sendMessage st' o = st') := by
  obtain ⟨h1, _⟩ := foldl_sends_ok qs rs st hl hq hlen
  rw [hh] at h1
  simp only [List.nil_append] at h1
  refine ⟨h1, ?_, ?_, ?_⟩
  · rw [h1, bind_mkExchange_length, List.length_zip]
    omega
  · rw [h1]; exact bind_mkExchange_alternates _
  · intro st' o h'
    unfold sendMessage
    rw [if_pos (Or.inr h')]

/-- Claim C8 witness: two concrete exchanges give a 4-entry alternating
history. -/
theorem chat_history_is_2N_alternating_witness :
    (List.foldl stepChat (⟨[], none, false, ""⟩ : ChatState)
        (List.zipWith (fun q r => ChatEvent.send q (AskResult.ok r none))
          ["Q1", "Q2"] ["A1", "A2"])).chatHistory.length = 2 * 2 ∧
    alternatesUB (List.foldl stepChat (⟨[], none, false, ""⟩ : ChatState)
        (List.zipWith (fun q r => ChatEvent.send q (AskResult.ok r none))
          ["Q1", "Q2"] ["A1", "A2"])).chatHistory = true := by
  have h := chat_history_is_2N_alternating ["Q1", "Q2"] ["A1", "A2"] rfl (by decide)
    ⟨[], none, false, ""⟩ rfl rfl
  exact ⟨by simpa using h.2.1, h.2.2.1⟩

/-! ### Theorems for C1 -/

/-- Helper: the feedback fold never touches a key absent from the results. -/
theorem feedback_foldl_notmem (results : List (String × Option PersonaFeedback))
    (m : String → Option PersonaFeedback) (k : String)
    (h : k ∉ results.map Prod.fst) :
    results.foldl feedbackStep m k = m k := by
  induction results generalizing m with
  | nil => rfl
  | cons r rs ih =>
    rw [List.map_cons, List.mem_cons] at h
    push_neg at h
    rw [List.foldl_cons, ih (feedbackStep m r) h.2]
    cases hr : r.2 with
    | some fb => simp [feedbackStep, hr, h.1]
    | none => simp [feedbackStep, hr]

/-- Helper: with pairwise distinct keys and an initial map that is empty on
those keys, the fold's value at the i-th key is exactly the i-th outcome. -/
theorem feedback_foldl_lookup (results : List (String × Option PersonaFeedback)) :
    ∀ (m : String → Option PersonaFeedback), (results.map Prod.fst).Nodup →
    (∀ j (hj : j < results.length), m (results.get ⟨j, hj⟩).1 = none) →
    ∀ i (hi : i < results.length),
      results.foldl feedbackStep m (results.get ⟨i, hi⟩).1 = (results.get ⟨i, hi⟩).2 := by
  induction results with
  | nil =>
    intro m _ _ i hi
    exact absurd hi (by simp)
  | cons r rs ih =>
    intro m hnd hm i hi
    rw [List.map_cons, List.nodup_cons] at hnd
    cases i with
    | zero =>
      show List.foldl feedbackStep (feedbackStep m r) rs r.1 = r.2
      rw [feedback_foldl_notmem rs (feedbackStep m r) r.1 hnd.1]
      cases hr : r.2 with
      | some fb => simp [feedbackStep, hr]
      | none =>
        simp only [feedbackStep, hr]
        exact hm 0 (by simp)
    | succ i =>
      have hi' : i < rs.length := by simpa using hi
      show List.foldl feedbackStep (feedbackStep m r) rs (rs.get ⟨i, hi'⟩).1 = (rs.get ⟨i, hi'⟩).2
      refine ih (feedbackStep m r) hnd.2 ?_ i hi'
      intro j hj
      have hne : (rs.get ⟨j, hj⟩).1 ≠ r.1 := by
        intro he
        exact hnd.1 (he ▸ List.mem_map_of_mem Prod.fst (rs.get_mem j hj))
      have hmj : m (rs.get ⟨j, hj⟩).1 = none := hm (j + 1) (by simpa using hj)
      cases hr : r.2 with
      | some fb =>
        simp only [feedbackStep, hr]
        rw [if_neg hne]
        exact hmj
      | none =>
        simp only [feedbackStep, hr]
        exact hmj

/-- Helper: the keys of the zipped result list are the profile pids. -/
theorem fetchResults_map_fst (profiles : List ProfileEntry) :
    ∀ outcomes : List (Option PersonaFeedback), outcomes.length = profiles.length →
    (fetchResults profiles outcomes).map Prod.fst = profiles.map profilePid := by
  induction profiles with
  | nil => intro outcomes _; rfl
  | cons e es ih =>
    intro outcomes hlen
    cases outcomes with
    | nil => simp at hlen
    | cons o os =>
      show (profilePid e, o).1 :: (fetchResults es os).map Prod.fst = _
      rw [ih os (by simpa using hlen), List.map_cons]

/-- Helper: the i-th zipped result pairs the i-th pid with the i-th outcome. -/
theorem fetchResults_get (profiles : List ProfileEntry) :
    ∀ (outcomes : List (Option PersonaFeedback)) (i : ℕ)
      (hi : i < profiles.length) (hlen : outcomes.length = profiles.length),
    (fetchResults profiles outcomes).length = profiles.length ∧
    (fetchResults profiles outcomes).get
        ⟨i, by rw [fetchResults, List.length_zipWith, hlen]; omega⟩ =
      (profilePid (profiles.get ⟨i, hi⟩), outcomes.getD i none) := by
  induction profiles with
  | nil =>
    intro outcomes i hi _
    exact absurd hi (by simp)
  | cons e es ih =>
    intro outcomes i hi hlen
    cases outcomes with
    | nil => simp at hlen
    | cons o os =>
      constructor
      · show (fetchResults es os).length + 1 = es.length + 1
        rw [fetchResults, List.length_zipWith, (by simpa using hlen : os.length = es.length)]
        simp
      · cases i with
        | zero => rfl
        | succ i =>
          have hi' : i < es.length := by simpa using hi
          exact (ih os i hi' (by simpa using hlen)).2

/-- Claim C1: the per-representative feedback calls are isolated: with
pairwise distinct pids, the aggregated feedback map at the i-th profile's
pid equals exactly the i-th call's own outcome — a successful call
contributes its feedback object, a failed call (null) leaves its pid absent,
and neither value depends on any other call of the batch, so one failure
cannot cancel, block or alter the others; keys outside the batch are never
present. -/
theorem feedback_batch_isolated (profiles : List ProfileEntry)
    (outcomes : List (Option PersonaFeedback))
    (hnd : (profiles.map profilePid).Nodup)
    (hlen : outcomes.length = profiles.length)
    (i : ℕ) (hi : i < profiles.length) :
    buildFeedbackMap (fetchResults profiles outcomes)
        (profilePid (profiles.get ⟨i, hi⟩)) = outcomes.getD i none ∧
    (∀ k, k ∉ profiles.map profilePid →
      buildFeedbackMap (fetchResults profiles outcomes) k = none) := by
  constructor
  · obtain ⟨hlen2, hget⟩ := fetchResults_get profiles outcomes i hi hlen
    have hi2 : i < (fetchResults profiles outcomes).length := by rw [hlen2]; exact hi
    have h := feedback_foldl_lookup (fetchResults profiles outcomes)
      (fun _ => none)
      (by rw [fetchResults_map_fst profiles outcomes hlen]; exact hnd)
      (fun j hj => rfl) i hi2
    rw [buildFeedbackMap]
    calc (fetchResults profiles outcomes).foldl feedbackStep (fun _ => none)
          (profilePid (profiles.get ⟨i, hi⟩))
        = (fetchResults profiles outcomes).foldl feedbackStep (fun _ => none)
          ((fetchResults profiles outcomes).get ⟨i, hi2⟩).1 := by rw [hget]
      _ = ((fetchResults profiles outcomes).get ⟨i, hi2⟩).2 := h
      _ = outcomes.getD i none := by rw [hget]
  · intro k hk
    rw [buildFeedbackMap]
    exact feedback_foldl_notmem (fetchResults profiles outcomes) (fun _ => none) k
      (by rw [fetchResults_map_fst profiles outcomes hlen]; exact hk)

/-- Claim C1 witness: a three-profile batch whose middle call fails yields a
map that is empty at the failed pid while the theorem's hypotheses hold. -/
theorem feedback_batch_isolated_witness :
    (([⟨"c1", some "p1"⟩, ⟨"c2", some "p2"⟩, ⟨"c3", none⟩] :
        List ProfileEntry).map profilePid).Nodup ∧
    buildFeedbackMap
      (fetchResults [⟨"c1", some "p1"⟩, ⟨"c2", some "p2"⟩, ⟨"c3", none⟩]
        [some ⟨⟨1, "a"⟩, ⟨2, "b"⟩, ⟨3, "c"⟩⟩, none, some ⟨⟨4, "d"⟩, ⟨5, "e"⟩, ⟨6, "f"⟩⟩])
      (profilePid (([⟨"c1", some "p1"⟩, ⟨"c2", some "p2"⟩, ⟨"c3", none⟩] :
        List ProfileEntry).get ⟨1, by decide⟩)) = none :=
  ⟨by decide,
   (feedback_batch_isolated
     [⟨"c1", some "p1"⟩, ⟨"c2", some "p2"⟩, ⟨"c3", none⟩]
     [some ⟨⟨1, "a"⟩, ⟨2, "b"⟩, ⟨3, "c"⟩⟩, none, some ⟨⟨4, "d"⟩, ⟨5, "e"⟩, ⟨6, "f"⟩⟩]
     (by decide) rfl 1 (by decide)).1⟩

/-! ### Theorems for C2 -/

/-- Helper: insertion permutes consing. -/
theorem insertBy_perm (le : α → α → Bool) (x : α) (l : List α) :
    (insertBy le x l).Perm (x :: l) := by
  induction l with
  | nil => exact List.Perm.refl _
  | cons y ys ih =>
    by_cases h : le x y
    · simp only [insertBy, if_pos h]
      exact List.Perm.refl _
    · simp only [insertBy, if_neg h]
      exact (ih.cons y).trans (List.Perm.swap x y ys)

/-- Helper: the ranking sort permutes its input. -/
theorem sortBy_perm (le : α → α → Bool) (l : List α) : (sortBy le l).Perm l := by
  induction l with
  | nil => exact List.Perm.refl _
  | cons x xs ih =>
    simp only [sortBy]
    exact (insertBy_perm le x (sortBy le xs)).trans (ih.cons x)

/-- Helper: Lloyd iterations preserve the number of centroids. -/
theorem length_kmeansIter (pts : List (List ℚ)) :
    ∀ (fuel : ℕ) (cents : List (List ℚ)),
      (kmeansIter fuel cents pts).length = cents.length := by
  intro fuel
  induction fuel with
  | zero => intro cents; rfl
  | succ fuel ih =>
    intro cents
    show (kmeansIter fuel (updateCentroids cents pts) pts).length = cents.length
    rw [ih (updateCentroids cents pts)]
    simp [updateCentroids]

/-- Helper: the nearest-centroid index is always in range. -/
theorem nearestIdx_lt (cents : List (List ℚ)) (x : List ℚ) (h : 0 < cents.length) :
    nearestIdx cents x < cents.length := by
  have main : ∀ (l : List ℕ) (b : ℕ), b < cents.length → (∀ i ∈ l, i < cents.length) →
      l.foldl (fun best i =>
        if sqDist (cents.getD i []) x < sqDist (cents.getD best []) x then i else best) b
        < cents.length := by
    intro l
    induction l with
    | nil => intro b hb _; exact hb
    | cons i l ih =>
      intro b hb hl
      show l.foldl _
        (if sqDist (cents.getD i []) x < sqDist (cents.getD b []) x then i else b)
        < cents.length
      apply ih
      · by_cases hc : sqDist (cents.getD i []) x < sqDist (cents.getD b []) x
        · rw [if_pos hc]; exact hl i (List.mem_cons_self _ _)
        · rw [if_neg hc]; exact hb
      · intro j hj
        exact hl j (List.mem_cons_of_mem _ hj)
  exact main (List.range cents.length) 0 h (fun i hi => List.mem_range.mp hi)

/-- Helper: counting a key over a filtered-then-keyed list as a countP. -/
theorem count_map_filter (key : α → String) (p : String) (r : α → Bool) (l : List α) :
    ((l.filter r).map key).count p = l.countP (fun a => (key a == p) && r a) := by
  show ((l.filter r).map key).countP (fun x => x == p) = _
  rw [List.countP_map, List.countP_filter]
  rfl

/-- Helper: countP splits over a disjoint disjunction of predicates. -/
theorem countP_disjoint_split (l : List α) (q r s : α → Bool)
    (h : ∀ a, q a = (r a || s a)) (hd : ∀ a, ¬(r a = true ∧ s a = true)) :
    l.countP q = l.countP r + l.countP s := by
  induction l with
  | nil => rfl
  | cons a l ih =>
    simp only [List.countP_cons, ih]
    cases hra : r a
    · cases hsa : s a
      · have hq : q a = false := by rw [h a, hra, hsa]; rfl
        simp [hq]
      · have hq : q a = true := by rw [h a, hra, hsa]; rfl
        simp [hq]
        omega
    · cases hsa : s a
      · have hq : q a = true := by rw [h a, hra, hsa]; rfl
        simp [hq]
        omega
      · exact absurd ⟨hra, hsa⟩ (hd a)

/-- Helper: counting over the fibers of an assignment listed along
pairwise-distinct cluster ids equals counting over the elements whose
assignment lies in that id list. -/
theorem count_flatMap_fibers (l : List α) (f : α → ℕ) (key : α → String) (p : String) :
    ∀ cs : List ℕ, cs.Nodup →
    ((cs.flatMap (fun c => (l.filter (fun a => f a = c)).map key)).count p)
      = ((l.filter (fun a => f a ∈ cs)).map key).count p := by
  intro cs
  induction cs with
  | nil =>
    intro _
    rw [count_map_filter]
    show (0 : ℕ) = _
    symm
    rw [List.countP_eq_zero]
    intro a _
    simp
  | cons c cs ih =>
    intro hnd
    rw [List.nodup_cons] at hnd
    rw [List.flatMap_cons, List.count_append, ih hnd.2,
      count_map_filter, count_map_filter, count_map_filter]
    refine (countP_disjoint_split l _ _ _ ?_ ?_).symm
    · intro a
      by_cases h1 : f a = c <;> by_cases h2 : f a ∈ cs <;>
        simp [List.mem_cons, h1, h2] <;> tauto
    · intro a ha
      obtain ⟨h1, h2⟩ := ha
      rw [Bool.and_eq_true, decide_eq_true_eq] at h1 h2
      exact hnd.1 (h1.2 ▸ h2.2)

/-- Helper: when the assignment always lands below n, the fibers over the
ids 0..n-1 restore the whole list, count for count. -/
theorem count_fibers_total (l : List α) (f : α → ℕ) (key : α → String) (p : String)
    (n : ℕ) (hf : ∀ a ∈ l, f a < n) :
    (((List.range n).flatMap (fun c => (l.filter (fun a => f a = c)).map key)).count p)
      = (l.map key).count p := by
  rw [count_flatMap_fibers l f key p (List.range n) (List.nodup_range n)]
  have hfl : l.filter (fun a => f a ∈ List.range n) = l :=
    List.filter_eq_self.mpr (fun a ha => by simpa [List.mem_range] using hf a ha)
  rw [hfl]

/-- Helper: dropping the empty fibers does not change the flattened member
pids. -/
theorem flatMap_clusters_eq (cents : List (List ℚ)) (topK : List (ℕ × PersonaRecord)) :
    ∀ cs : List ℕ,
    ((cs.filterMap (fun c =>
        match clusterMembers cents topK c with
        | [] => none
        | _ :: _ => some (mkClusterProfile cents topK c))).flatMap
       ClusterProfile.member_pids)
      = cs.flatMap (fun c => (clusterMembers cents topK c).map (fun q => q.2.pid)) := by
  intro cs
  induction cs with
  | nil => rfl
  | cons c cs ih =>
    rw [List.flatMap_cons]
    rcases hmem : clusterMembers cents topK c with _ | ⟨m, ms⟩
    · simp only [List.filterMap_cons, hmem]
      rw [ih]
      rw [List.map_nil, List.nil_append]
    · simp only [List.filterMap_cons, hmem]
      rw [List.flatMap_cons, ih]
      show (mkClusterProfile cents topK c).member_pids ++ _ = _
      have hmk : (mkClusterProfile cents topK c).member_pids
          = (clusterMembers cents topK c).map (fun q => q.2.pid) := rfl
      rw [hmk, hmem]

/-- Helper: the top-K pids inherit distinctness from the corpus. -/
theorem topK_pids_nodup (v : List ℚ) (store : List PersonaRecord) (K : ℕ)
    (hnd : (store.map PersonaRecord.pid).Nodup) :
    ((topKOf v store K).map (fun q => q.2.pid)).Nodup := by
  have hperm : (rankedCorpus v store).Perm store.enum := sortBy_perm _ _
  have hmap : ((rankedCorpus v store).map (fun q : ℕ × PersonaRecord => q.2.pid)).Perm
      ((store.enum).map (fun q : ℕ × PersonaRecord => q.2.pid)) := hperm.map _
  have henum : (store.enum).map (fun q : ℕ × PersonaRecord => q.2.pid)
      = store.map PersonaRecord.pid := by
    have h1 : (store.enum).map (fun q : ℕ × PersonaRecord => q.2.pid)
        = ((store.enum).map Prod.snd).map PersonaRecord.pid := by
      rw [List.map_map]
      rfl
    rw [h1, List.enum_map_snd]
  have hsorted : ((rankedCorpus v store).map (fun q : ℕ × PersonaRecord => q.2.pid)).Nodup :=
    hmap.nodup_iff.mpr (henum ▸ hnd)
  have htake : (topKOf v store K).map (fun q : ℕ × PersonaRecord => q.2.pid)
      = ((rankedCorpus v store).map (fun q : ℕ × PersonaRecord => q.2.pid)).take K := by
    rw [topKOf, List.map_take]
  rw [htake]
  exact (List.take_sublist K _).nodup hsorted

/-- Claim C2 (spec-modelled): for every valid request the clusters returned
by rank_and_cluster partition the top-K set exactly — flattening the member
pids of all clusters yields each top-K pid with its exact multiplicity, and
the top-K pids are pairwise distinct, so every top-K pid appears in exactly
one cluster, none in two, none left out. -/
theorem analyze_clusters_partition (v : List ℚ) (store : List PersonaRecord)
    (K clusterCount seed fuel : ℕ) (hK : 0 < K) (hs : store ≠ [])
    (hcc : 0 < clusterCount) (hnd : (store.map PersonaRecord.pid).Nodup) (p : String) :
    (((rank_and_cluster v store K clusterCount seed fuel).2.flatMap
        ClusterProfile.member_pids).count p
      = (((rank_and_cluster v store K clusterCount seed fuel).1.map
          (fun q : ℕ × PersonaRecord => q.2.pid)).count p)) ∧
    (((rank_and_cluster v store K clusterCount seed fuel).1.map
        (fun q : ℕ × PersonaRecord => q.2.pid)).Nodup) := by
  have htopk_pos : 0 < (topKOf v store K).length := by
    rw [topKOf, List.length_take]
    have hlen : (rankedCorpus v store).length = store.length := by
      simp only [rankedCorpus]
      rw [(sortBy_perm (rankLE v) store.enum).length_eq, List.enum_length]
    have hs' : 0 < store.length := List.length_pos.mpr hs
    omega
  have hccpos : 0 < min clusterCount (topKOf v store K).length := by omega
  have hcents_len : (centroidsOf v store K clusterCount seed fuel).length
      = min clusterCount (topKOf v store K).length := by
    simp only [centroidsOf]
    rw [length_kmeansIter]
    simp [initCentroids]
  have hassign : ∀ q ∈ topKOf v store K,
      nearestIdx (centroidsOf v store K clusterCount seed fuel) q.2.embedding
        < min clusterCount (topKOf v store K).length := by
    intro q _
    have h := nearestIdx_lt (centroidsOf v store K clusterCount seed fuel) q.2.embedding
      (by rw [hcents_len]; exact hccpos)
    rw [hcents_len] at h
    exact h
  constructor
  · show ((clustersOf v store K clusterCount seed fuel).flatMap
        ClusterProfile.member_pids).count p = _
    simp only [clustersOf]
    rw [flatMap_clusters_eq]
    simp only [clusterMembers]
    exact count_fibers_total (topKOf v store K)
      (fun q => nearestIdx (centroidsOf v store K clusterCount seed fuel) q.2.embedding)
      (fun q => q.2.pid) p (min clusterCount (topKOf v store K).length) hassign
  · exact topK_pids_nodup v store K hnd

/-- Claim C2 witness: the partition theorem applied to a concrete
three-persona corpus with K = 2, two clusters, seed 0 and one Lloyd
iteration. -/
theorem analyze_clusters_partition_witness :
    (0 : ℕ) < 2 ∧
    (((rank_and_cluster [1, 0] demoStore 2 2 0 1).2.flatMap
        ClusterProfile.member_pids).count "a"
      = (((rank_and_cluster [1, 0] demoStore 2 2 0 1).1.map
          (fun q : ℕ × PersonaRecord => q.2.pid)).count "a")) ∧
    (((rank_and_cluster [1, 0] demoStore 2 2 0 1).1.map
        (fun q : ℕ × PersonaRecord => q.2.pid)).Nodup) :=
  ⟨by decide,
   analyze_clusters_partition [1, 0] demoStore 2 2 0 1 (by decide) (by decide)
     (by decide) (by decide) "a"⟩

end Simuverse
